import Mathlib

/-!
# Verification of `hammer_dance.py`

A shallow embedding of the core of `src/hammer_dance.py`: the SIR
compartmental model (`sir_derivatives`, `euler_step`) and the dynamic
hammer-and-dance simulation loop (`simulate_dynamic_hammer_dance`).

Numbers are modelled as rationals (`ℚ`), i.e. exact real arithmetic;
the Python floats are approximations of these values.  The phase strings
`dance` / `hammer` become a two-value enumeration, and the Python
loop with its `break` becomes structural recursion on the remaining step
budget.  The list fields of `SimState` are the six lists the Python
function builds and returns; the scalar fields are the live
variables of the loop.
-/

set_option autoImplicit false

/-- The two phase labels, `hammer` and `dance` strings in the Python source. -/
inductive Phase where
  | hammer
  | dance
deriving DecidableEq, Repr

/-- The transition kinds appearing in `transition_points` entries. The
`hammer_to_dance_timeout` kind is mentioned in the source (in the printing
loop of `main`) but never produced by the control logic. -/
inductive TransitionKind where
  | dance_to_hammer
  | hammer_to_dance_threshold
  | hammer_to_dance_timeout
deriving DecidableEq, Repr

/-- The immutable model parameters, from `HammerDanceModel.__init__`. -/
structure HammerDanceModel where
  N : ℚ
  I0 : ℚ
  R0 : ℚ
  beta_hammer : ℚ
  beta_dance : ℚ
  gamma : ℚ
deriving DecidableEq, Repr

/-- `self.S0 = N - I0 - R0` from `__init__`. -/
def HammerDanceModel.S0 (m : HammerDanceModel) : ℚ :=
  m.N - m.I0 - m.R0

/-- `HammerDanceModel.sir_derivatives`: normalises to `s = S/N`,
`i = I/N`, `r = R/N`, computes the normalised derivatives, and rescales
by `N`.  Returns `(dSdt, dIdt, dRdt)`. -/
def HammerDanceModel.sir_derivatives (m : HammerDanceModel)
    (S I R beta : ℚ) : ℚ × ℚ × ℚ :=
  let s := S / m.N
  let i := I / m.N
  let _r := R / m.N
  let dsdt := -beta * s * i
  let didt := beta * s * i - m.gamma * i
  let drdt := m.gamma * i
  (dsdt * m.N, didt * m.N, drdt * m.N)

/-- `HammerDanceModel.euler_step`: one explicit forward-Euler step. -/
def HammerDanceModel.euler_step (m : HammerDanceModel)
    (S I R beta dt : ℚ) : ℚ × ℚ × ℚ :=
  let d := m.sir_derivatives S I R beta
  (S + d.1 * dt, I + d.2.1 * dt, R + d.2.2 * dt)

/-- The loop state of `simulate_dynamic_hammer_dance`: the six result
lists plus the live variables `S, I, R, t, current_phase,
phase_start_time`.  (`phase_duration` is initialised to `0` in the
source and never read or written afterwards, so it is omitted.) -/
structure SimState where
  t_list : List ℚ
  S_list : List ℚ
  I_list : List ℚ
  R_list : List ℚ
  phase_list : List Phase
  transition_points : List (ℚ × TransitionKind × ℚ)
  S : ℚ
  I : ℚ
  R : ℚ
  t : ℚ
  current_phase : Phase
  phase_start_time : ℚ
deriving DecidableEq, Repr

/-- One iteration of the `for step in range(steps)` loop body of
`simulate_dynamic_hammer_dance`, excluding the `break` test: append the
current `(t, S, I, R, phase)` to the lists, decide the phase transition
(appending a transition event when one occurs), integrate one Euler step
with the β of the branch that was entered, and advance `t` by `dt`. -/
def HammerDanceModel.simStep (m : HammerDanceModel)
    (hammer_threshold dance_threshold dt : ℚ) (st : SimState) : SimState :=
  let st1 := { st with
    t_list := st.t_list ++ [st.t]
    S_list := st.S_list ++ [st.S]
    I_list := st.I_list ++ [st.I]
    R_list := st.R_list ++ [st.R]
    phase_list := st.phase_list ++ [st.current_phase] }
  let st2 :=
    match st1.current_phase with
    | Phase.dance =>
      let st3 :=
        if st1.I > hammer_threshold then
          { st1 with
            current_phase := Phase.hammer
            phase_start_time := st1.t
            transition_points := st1.transition_points ++
              [(st1.t, TransitionKind.dance_to_hammer, st1.I)] }
        else st1
      let nxt := m.euler_step st3.S st3.I st3.R m.beta_dance dt
      { st3 with S := nxt.1, I := nxt.2.1, R := nxt.2.2 }
    | Phase.hammer =>
      let st3 :=
        if st1.I < dance_threshold then
          { st1 with
            current_phase := Phase.dance
            phase_start_time := st1.t
            transition_points := st1.transition_points ++
              [(st1.t, TransitionKind.hammer_to_dance_threshold, st1.I)] }
        else st1
      let nxt := m.euler_step st3.S st3.I st3.R m.beta_hammer dt
      { st3 with S := nxt.1, I := nxt.2.1, R := nxt.2.2 }
  { st2 with t := st2.t + dt }

/-- The extinction test `if I < 0.1: break`, applied after each step. -/
def extinct (st : SimState) : Prop :=
  st.I < 1 / 10

instance (st : SimState) : Decidable (extinct st) := by
  unfold extinct; infer_instance

/-- The bounded loop of `simulate_dynamic_hammer_dance`: run up to `n`
iterations of `simStep`, stopping early as soon as the post-step state
satisfies `I < 0.1`. -/
def HammerDanceModel.simLoop (m : HammerDanceModel)
    (hammer_threshold dance_threshold dt : ℚ) :
    Nat → SimState → SimState
  | 0, st => st
  | Nat.succ n, st =>
    let st' := m.simStep hammer_threshold dance_threshold dt st
    if extinct st' then st'
    else m.simLoop hammer_threshold dance_threshold dt n st'

/-- The initial loop state: empty lists, `(S, I, R) = (S0, I0, R0)`,
`t = 0`, `current_phase = dance`, `phase_start_time = 0`. -/
def HammerDanceModel.initState (m : HammerDanceModel) : SimState :=
  { t_list := []
    S_list := []
    I_list := []
    R_list := []
    phase_list := []
    transition_points := []
    S := m.S0
    I := m.I0
    R := m.R0
    t := 0
    current_phase := Phase.dance
    phase_start_time := 0 }

/-- The Python `int()` conversion on an exact rational: truncation toward
zero. -/
def pyInt (q : ℚ) : Int :=
  if q < 0 then ⌈q⌉ else ⌊q⌋

/-- `HammerDanceModel.simulate_dynamic_hammer_dance`: compute the step
budget `steps = int(max_days / dt)` and run the loop from the initial
state.  The final `SimState` carries the six returned lists together
with the final live variables.  `hammer_duration` and `dance_duration`
are accepted but never used, exactly as in the source. -/
def HammerDanceModel.simulate_dynamic_hammer_dance (m : HammerDanceModel)
    (max_days hammer_threshold dance_threshold : ℚ)
    (hammer_duration dance_duration : Option ℚ) (dt : ℚ) : SimState :=
  let _ := hammer_duration
  let _ := dance_duration
  let steps := (pyInt (max_days / dt)).toNat
  m.simLoop hammer_threshold dance_threshold dt steps m.initState

/-- Plain iteration of the loop body, with no early exit: `stepIter st n`
is the state after `n` executions of the loop body starting from `st`. -/
def HammerDanceModel.stepIter (m : HammerDanceModel)
    (hammer_threshold dance_threshold dt : ℚ) (st : SimState) :
    Nat → SimState
  | 0 => st
  | Nat.succ n =>
    m.simStep hammer_threshold dance_threshold dt
      (m.stepIter hammer_threshold dance_threshold dt st n)

/-! ## Concrete parameter sets used as test fixtures -/

/-- The parameter set of the derivative fixture in the design notes:
`N = 10000`, `γ = 0.1` (the rate fields are unused by
`sir_derivatives`, which takes β as an argument). -/
def exModelC5 : HammerDanceModel :=
  { N := 10000, I0 := 900, R0 := 100, beta_hammer := 1/2, beta_dance := 1/2,
    gamma := 1/10 }

/-- A parameter set whose first step crosses the hammer threshold:
`I0 = 5` with `hammer_threshold = 1`, and `beta_dance = 1` while
`beta_hammer = 0`, so the two candidate rates give different next
states. -/
def exModelSwitch : HammerDanceModel :=
  { N := 10, I0 := 5, R0 := 0, beta_hammer := 0, beta_dance := 1, gamma := 0 }

/-- A parameter set driving the infected count to `0` in one Euler step
(`γ · dt = 1` with `β = 0`), so the extinction exit fires at once. -/
def exModelExtinct : HammerDanceModel :=
  { N := 10, I0 := 1, R0 := 0, beta_hammer := 0, beta_dance := 0, gamma := 10 }

/-- A parameter set with `β = γ = 0`: the state `(9, 1, 0)` never moves,
so the extinction exit never fires and the budget is exhausted. -/
def exModelSteady : HammerDanceModel :=
  { N := 10, I0 := 1, R0 := 0, beta_hammer := 0, beta_dance := 0, gamma := 0 }

/-! ## Field characterisation of one loop iteration -/

theorem simStep_t_list (m : HammerDanceModel) (ht dtl dt : ℚ) (st : SimState) :
    (m.simStep ht dtl dt st).t_list = st.t_list ++ [st.t] := by
  cases h : st.current_phase <;>
    simp [HammerDanceModel.simStep, h] <;> split <;> rfl

theorem simStep_S_list (m : HammerDanceModel) (ht dtl dt : ℚ) (st : SimState) :
    (m.simStep ht dtl dt st).S_list = st.S_list ++ [st.S] := by
  cases h : st.current_phase <;>
    simp [HammerDanceModel.simStep, h] <;> split <;> rfl

theorem simStep_I_list (m : HammerDanceModel) (ht dtl dt : ℚ) (st : SimState) :
    (m.simStep ht dtl dt st).I_list = st.I_list ++ [st.I] := by
  cases h : st.current_phase <;>
    simp [HammerDanceModel.simStep, h] <;> split <;> rfl

theorem simStep_R_list (m : HammerDanceModel) (ht dtl dt : ℚ) (st : SimState) :
    (m.simStep ht dtl dt st).R_list = st.R_list ++ [st.R] := by
  cases h : st.current_phase <;>
    simp [HammerDanceModel.simStep, h] <;> split <;> rfl

theorem simStep_phase_list (m : HammerDanceModel) (ht dtl dt : ℚ) (st : SimState) :
    (m.simStep ht dtl dt st).phase_list = st.phase_list ++ [st.current_phase] := by
  cases h : st.current_phase <;>
    simp [HammerDanceModel.simStep, h] <;> split <;> rfl

theorem simStep_t (m : HammerDanceModel) (ht dtl dt : ℚ) (st : SimState) :
    (m.simStep ht dtl dt st).t = st.t + dt := by
  cases h : st.current_phase <;>
    simp [HammerDanceModel.simStep, h] <;> split <;> rfl

theorem simStep_S (m : HammerDanceModel) (ht dtl dt : ℚ) (st : SimState) :
    (m.simStep ht dtl dt st).S =
      (m.euler_step st.S st.I st.R
        (if st.current_phase = Phase.dance then m.beta_dance else m.beta_hammer) dt).1 := by
  cases h : st.current_phase <;>
    simp [HammerDanceModel.simStep, h] <;> split <;> rfl

theorem simStep_I (m : HammerDanceModel) (ht dtl dt : ℚ) (st : SimState) :
    (m.simStep ht dtl dt st).I =
      (m.euler_step st.S st.I st.R
        (if st.current_phase = Phase.dance then m.beta_dance else m.beta_hammer) dt).2.1 := by
  cases h : st.current_phase <;>
    simp [HammerDanceModel.simStep, h] <;> split <;> rfl

theorem simStep_R (m : HammerDanceModel) (ht dtl dt : ℚ) (st : SimState) :
    (m.simStep ht dtl dt st).R =
      (m.euler_step st.S st.I st.R
        (if st.current_phase = Phase.dance then m.beta_dance else m.beta_hammer) dt).2.2 := by
  cases h : st.current_phase <;>
    simp [HammerDanceModel.simStep, h] <;> split <;> rfl

theorem simStep_phase (m : HammerDanceModel) (ht dtl dt : ℚ) (st : SimState) :
    (m.simStep ht dtl dt st).current_phase =
      match st.current_phase with
      | Phase.dance => if st.I > ht then Phase.hammer else Phase.dance
      | Phase.hammer => if st.I < dtl then Phase.dance else Phase.hammer := by
  cases h : st.current_phase <;>
    simp [HammerDanceModel.simStep, h] <;> split <;> simp_all

theorem simStep_transitions (m : HammerDanceModel) (ht dtl dt : ℚ) (st : SimState) :
    (m.simStep ht dtl dt st).transition_points =
      st.transition_points ++
        match st.current_phase with
        | Phase.dance =>
          if st.I > ht then [(st.t, TransitionKind.dance_to_hammer, st.I)] else []
        | Phase.hammer =>
          if st.I < dtl then [(st.t, TransitionKind.hammer_to_dance_threshold, st.I)] else [] := by
  cases h : st.current_phase <;>
    simp [HammerDanceModel.simStep, h] <;> split <;> simp_all

/-! ## Iteration lemmas -/

theorem stepIter_succ_shift (m : HammerDanceModel) (ht dtl dt : ℚ)
    (st : SimState) (n : Nat) :
    m.stepIter ht dtl dt st (n + 1) =
      m.stepIter ht dtl dt (m.simStep ht dtl dt st) n := by
  induction n with
  | zero => rfl
  | succ n ih =>
    show m.simStep ht dtl dt (m.stepIter ht dtl dt st (n + 1)) = _
    rw [ih]
    rfl

theorem stepIter_S_list (m : HammerDanceModel) (ht dtl dt : ℚ)
    (st : SimState) (n : Nat) :
    (m.stepIter ht dtl dt st n).S_list =
      st.S_list ++ (List.range n).map (fun k => (m.stepIter ht dtl dt st k).S) := by
  induction n with
  | zero => simp [HammerDanceModel.stepIter]
  | succ n ih =>
    show (m.simStep ht dtl dt (m.stepIter ht dtl dt st n)).S_list = _
    rw [simStep_S_list, ih, List.range_succ]
    simp [HammerDanceModel.stepIter]

theorem stepIter_I_list (m : HammerDanceModel) (ht dtl dt : ℚ)
    (st : SimState) (n : Nat) :
    (m.stepIter ht dtl dt st n).I_list =
      st.I_list ++ (List.range n).map (fun k => (m.stepIter ht dtl dt st k).I) := by
  induction n with
  | zero => simp [HammerDanceModel.stepIter]
  | succ n ih =>
    show (m.simStep ht dtl dt (m.stepIter ht dtl dt st n)).I_list = _
    rw [simStep_I_list, ih, List.range_succ]
    simp [HammerDanceModel.stepIter]

theorem stepIter_R_list (m : HammerDanceModel) (ht dtl dt : ℚ)
    (st : SimState) (n : Nat) :
    (m.stepIter ht dtl dt st n).R_list =
      st.R_list ++ (List.range n).map (fun k => (m.stepIter ht dtl dt st k).R) := by
  induction n with
  | zero => simp [HammerDanceModel.stepIter]
  | succ n ih =>
    show (m.simStep ht dtl dt (m.stepIter ht dtl dt st n)).R_list = _
    rw [simStep_R_list, ih, List.range_succ]
    simp [HammerDanceModel.stepIter]

theorem stepIter_t_list (m : HammerDanceModel) (ht dtl dt : ℚ)
    (st : SimState) (n : Nat) :
    (m.stepIter ht dtl dt st n).t_list =
      st.t_list ++ (List.range n).map (fun k => (m.stepIter ht dtl dt st k).t) := by
  induction n with
  | zero => simp [HammerDanceModel.stepIter]
  | succ n ih =>
    show (m.simStep ht dtl dt (m.stepIter ht dtl dt st n)).t_list = _
    rw [simStep_t_list, ih, List.range_succ]
    simp [HammerDanceModel.stepIter]

theorem stepIter_phase_list (m : HammerDanceModel) (ht dtl dt : ℚ)
    (st : SimState) (n : Nat) :
    (m.stepIter ht dtl dt st n).phase_list =
      st.phase_list ++
        (List.range n).map (fun k => (m.stepIter ht dtl dt st k).current_phase) := by
  induction n with
  | zero => simp [HammerDanceModel.stepIter]
  | succ n ih =>
    show (m.simStep ht dtl dt (m.stepIter ht dtl dt st n)).phase_list = _
    rw [simStep_phase_list, ih, List.range_succ]
    simp [HammerDanceModel.stepIter]

/-! ## Loop lemmas -/

theorem simLoop_zero (m : HammerDanceModel) (ht dtl dt : ℚ) (st : SimState) :
    m.simLoop ht dtl dt 0 st = st := rfl

theorem simLoop_succ (m : HammerDanceModel) (ht dtl dt : ℚ) (st : SimState) (n : Nat) :
    m.simLoop ht dtl dt (n + 1) st =
      if extinct (m.simStep ht dtl dt st) then m.simStep ht dtl dt st
      else m.simLoop ht dtl dt n (m.simStep ht dtl dt st) := rfl

/-- If the extinction test never fires along the first `n` steps, the loop
is plain iteration of the loop body. -/
theorem simLoop_eq_stepIter (m : HammerDanceModel) (ht dtl dt : ℚ) (n : Nat)
    (st : SimState)
    (hno : ∀ k, k < n → ¬ extinct (m.stepIter ht dtl dt st (k + 1))) :
    m.simLoop ht dtl dt n st = m.stepIter ht dtl dt st n := by
  induction n generalizing st with
  | zero => rfl
  | succ n ih =>
    have h0 : ¬ extinct (m.simStep ht dtl dt st) := hno 0 (Nat.succ_pos n)
    rw [simLoop_succ, if_neg h0, stepIter_succ_shift]
    exact ih (m.simStep ht dtl dt st) fun k hk => by
      rw [← stepIter_succ_shift]
      exact hno (k + 1) (Nat.succ_lt_succ hk)

/-- If the extinction test first fires after step `k + 1` and the budget
allows at least `k + 1` iterations, the loop stops right there, returning
the post-integration state of step `k`. -/
theorem simLoop_stops (m : HammerDanceModel) (ht dtl dt : ℚ) (k : Nat) :
    ∀ (n : Nat) (st : SimState), k < n →
    (∀ j, j < k → ¬ extinct (m.stepIter ht dtl dt st (j + 1))) →
    extinct (m.stepIter ht dtl dt st (k + 1)) →
    m.simLoop ht dtl dt n st = m.stepIter ht dtl dt st (k + 1) := by
  induction k with
  | zero =>
    intro n st hk _ hx
    obtain ⟨n, rfl⟩ := Nat.exists_eq_succ_of_ne_zero (Nat.pos_iff_ne_zero.mp hk)
    have hx1 : extinct (m.simStep ht dtl dt st) := hx
    rw [simLoop_succ, if_pos hx1]
    rfl
  | succ k ih =>
    intro n st hk hno hx
    obtain ⟨n, rfl⟩ := Nat.exists_eq_succ_of_ne_zero (Nat.pos_iff_ne_zero.mp
      (Nat.lt_of_le_of_lt (Nat.zero_le _) hk))
    have h0 : ¬ extinct (m.simStep ht dtl dt st) := hno 0 (Nat.succ_pos k)
    rw [simLoop_succ, if_neg h0, stepIter_succ_shift]
    exact ih n (m.simStep ht dtl dt st) (Nat.lt_of_succ_lt_succ hk)
      (fun j hj => by
        rw [← stepIter_succ_shift]
        exact hno (j + 1) (Nat.succ_lt_succ hj))
      (by rw [← stepIter_succ_shift]; exact hx)

/-- The loop always returns some plain iterate of the loop body, after at
most `n` iterations. -/
theorem simLoop_exists_stepIter (m : HammerDanceModel) (ht dtl dt : ℚ) :
    ∀ (n : Nat) (st : SimState), ∃ j, j ≤ n ∧
      m.simLoop ht dtl dt n st = m.stepIter ht dtl dt st j := by
  intro n
  induction n with
  | zero => exact fun st => ⟨0, Nat.le_refl 0, rfl⟩
  | succ n ih =>
    intro st
    by_cases hx : extinct (m.simStep ht dtl dt st)
    · exact ⟨1, Nat.succ_le_succ (Nat.zero_le n), by rw [simLoop_succ, if_pos hx]; rfl⟩
    · obtain ⟨j, hj, hrun⟩ := ih (m.simStep ht dtl dt st)
      exact ⟨j + 1, Nat.succ_le_succ hj, by
        rw [simLoop_succ, if_neg hx, stepIter_succ_shift]; exact hrun⟩

/-! ## Conservation of the population total -/

theorem euler_step_sum (m : HammerDanceModel) (S I R beta dt : ℚ) :
    (m.euler_step S I R beta dt).1 + (m.euler_step S I R beta dt).2.1 +
      (m.euler_step S I R beta dt).2.2 = S + I + R := by
  simp only [HammerDanceModel.euler_step, HammerDanceModel.sir_derivatives]
  ring

theorem simStep_sum (m : HammerDanceModel) (ht dtl dt : ℚ) (st : SimState) :
    (m.simStep ht dtl dt st).S + (m.simStep ht dtl dt st).I +
      (m.simStep ht dtl dt st).R = st.S + st.I + st.R := by
  rw [simStep_S, simStep_I, simStep_R, euler_step_sum]

theorem stepIter_sum (m : HammerDanceModel) (ht dtl dt : ℚ) (st : SimState) (n : Nat) :
    (m.stepIter ht dtl dt st n).S + (m.stepIter ht dtl dt st n).I +
      (m.stepIter ht dtl dt st n).R = st.S + st.I + st.R := by
  induction n with
  | zero => rfl
  | succ n ih =>
    have h : m.stepIter ht dtl dt st (n + 1) =
        m.simStep ht dtl dt (m.stepIter ht dtl dt st n) := rfl
    rw [h, simStep_sum]
    exact ih

theorem initState_sum (m : HammerDanceModel) :
    m.initState.S + m.initState.I + m.initState.R = m.N := by
  simp only [HammerDanceModel.initState, HammerDanceModel.S0]
  ring

/-! ## The step budget -/

/-- For the purpose of taking `max(0, ·)`, the Python truncation toward
zero agrees with the floor: negative quotients clamp to zero steps either
way. -/
theorem pyInt_toNat (q : ℚ) : (pyInt q).toNat = ⌊q⌋.toNat := by
  unfold pyInt
  split
  · next h =>
    have hq : q ≤ 0 := le_of_lt h
    have hc : ⌈q⌉ ≤ 0 := by
      exact_mod_cast Int.ceil_le.mpr (by exact_mod_cast hq)
    have hf : ⌊q⌋ ≤ 0 := le_trans (Int.floor_le_ceil q) hc
    rw [Int.toNat_of_nonpos hc, Int.toNat_of_nonpos hf]
  · rfl

theorem simulate_eq_simLoop (m : HammerDanceModel)
    (max_days ht dtl : ℚ) (hd dd : Option ℚ) (dt : ℚ) :
    m.simulate_dynamic_hammer_dance max_days ht dtl hd dd dt =
      m.simLoop ht dtl dt (pyInt (max_days / dt)).toNat m.initState := rfl

/-! ## Indexing helper -/

theorem getD_map_range {α : Type} (f : Nat → α) (n k : Nat) (d : α) (h : k < n) :
    ((List.range n).map f).getD k d = f k := by
  have hlen : k < ((List.range n).map f).length := by simpa using h
  rw [List.getD_eq_getElem _ _ hlen, List.getElem_map, List.getElem_range]

/-! ## The claims -/

/-- C2: for every state `(S, I, R)` and rate `β`, with `N > 0`,
`sir_derivatives` returns exactly
`(−β·(S/N)·(I/N)·N, β·(S/N)·(I/N)·N − γ·I, γ·I)` in exact arithmetic. -/
theorem C2_sir_derivatives_formula (m : HammerDanceModel) (S I R beta : ℚ)
    (hN : 0 < m.N) :
    m.sir_derivatives S I R beta =
      (-(beta * (S / m.N) * (I / m.N) * m.N),
       beta * (S / m.N) * (I / m.N) * m.N - m.gamma * I,
       m.gamma * I) := by
  have hN0 : m.N ≠ 0 := ne_of_gt hN
  simp only [HammerDanceModel.sir_derivatives, Prod.mk.injEq]
  refine ⟨by ring, ?_, ?_⟩ <;> field_simp <;> ring

theorem C2_witness :
    (0 : ℚ) < exModelC5.N ∧
      exModelC5.sir_derivatives 9000 900 100 (1/2) =
        (-(1/2 * ((9000 : ℚ) / exModelC5.N) * (900 / exModelC5.N) * exModelC5.N),
         1/2 * ((9000 : ℚ) / exModelC5.N) * (900 / exModelC5.N) * exModelC5.N -
           exModelC5.gamma * 900,
         exModelC5.gamma * 900) :=
  ⟨by norm_num [exModelC5],
   C2_sir_derivatives_formula exModelC5 9000 900 100 (1/2) (by norm_num [exModelC5])⟩

/-- C5 (counterexample): at `S = 9000`, `I = 900`, `R = 100` with
`N = 10000`, `β = 0.5`, `γ = 0.1`, the code returns
`(dS, dI, dR) = (−405, 315, 90)`, so the claimed `dI = 360` is wrong. -/
theorem C5_counterexample :
    exModelC5.sir_derivatives 9000 900 100 (1/2) = (-405, 315, 90) ∧
      exModelC5.sir_derivatives 9000 900 100 (1/2) ≠ (-405, 360, 90) := by
  refine ⟨?_, ?_⟩ <;>
    norm_num [HammerDanceModel.sir_derivatives, exModelC5, Prod.ext_iff]

/-- C5 (amended): at `S = 9000`, `I = 900`, `R = 100` with `N = 10000`,
`β = 0.5`, `γ = 0.1`, `sir_derivatives` returns `dS = −405.0`,
`dI = 315.0`, `dR = 90.0`. -/
theorem C5_amended_derivative_values :
    exModelC5.sir_derivatives 9000 900 100 (1/2) = (-405, 315, 90) := by
  norm_num [HammerDanceModel.sir_derivatives, exModelC5, Prod.ext_iff]

/-- C1 (amended): on every simulation step, the transmission rate fed to
the Euler integrator is selected by the phase carried into the step,
before the phase-transition decision: `beta_dance` when that phase is
`dance` and `beta_hammer` when it is `hammer`.  In particular, on a step
where the phase switches, the OLD phase rate is the one used to compute
the next state (the switch only affects the rate from the following step
on). -/
theorem C1_amended_rate_from_entry_phase (m : HammerDanceModel)
    (ht dtl dt : ℚ) (st : SimState) :
    ((m.simStep ht dtl dt st).S, (m.simStep ht dtl dt st).I,
      (m.simStep ht dtl dt st).R) =
      m.euler_step st.S st.I st.R
        (if st.current_phase = Phase.dance then m.beta_dance else m.beta_hammer)
        dt := by
  simp [simStep_S, simStep_I, simStep_R, Prod.ext_iff]

/-- C4: the phase machine starts in `dance`; in `dance` it switches to
`hammer` exactly when the pre-integration infected count satisfies
`I > hammer_threshold` (otherwise staying in `dance`), and in `hammer`
it switches to `dance` exactly when `I < dance_threshold` (otherwise
staying in `hammer`). -/
theorem C4_phase_machine (m : HammerDanceModel) (ht dtl dt : ℚ) :
    m.initState.current_phase = Phase.dance ∧
    (∀ st : SimState, st.current_phase = Phase.dance →
      (((m.simStep ht dtl dt st).current_phase = Phase.hammer ↔ st.I > ht) ∧
       ((m.simStep ht dtl dt st).current_phase = Phase.dance ↔ ¬ st.I > ht))) ∧
    (∀ st : SimState, st.current_phase = Phase.hammer →
      (((m.simStep ht dtl dt st).current_phase = Phase.dance ↔ st.I < dtl) ∧
       ((m.simStep ht dtl dt st).current_phase = Phase.hammer ↔ ¬ st.I < dtl))) := by
  refine ⟨rfl, ?_, ?_⟩ <;>
    intro st h <;> rw [simStep_phase, h] <;> constructor <;> constructor <;>
      intro h2 <;> by_contra h3 <;> simp_all

/-- C3: every recorded step of every run conserves the population total
exactly (`S_k + I_k + R_k = N` in exact rational arithmetic), and
`euler_step` preserves the sum `S + I + R` for every input state, rate
and step size. -/
theorem C3_conservation :
    (∀ (m : HammerDanceModel) (max_days ht dtl : ℚ) (hd dd : Option ℚ)
       (dt : ℚ) (k : Nat),
      k < (m.simulate_dynamic_hammer_dance max_days ht dtl hd dd dt).S_list.length →
      (m.simulate_dynamic_hammer_dance max_days ht dtl hd dd dt).S_list.getD k 0 +
        (m.simulate_dynamic_hammer_dance max_days ht dtl hd dd dt).I_list.getD k 0 +
        (m.simulate_dynamic_hammer_dance max_days ht dtl hd dd dt).R_list.getD k 0 =
        m.N) ∧
    (∀ (m : HammerDanceModel) (S I R beta dt : ℚ),
      (m.euler_step S I R beta dt).1 + (m.euler_step S I R beta dt).2.1 +
        (m.euler_step S I R beta dt).2.2 = S + I + R) := by
  constructor
  · intro m max_days ht dtl hd dd dt k hk
    obtain ⟨j, hj, hrun⟩ := simLoop_exists_stepIter m ht dtl dt
      (pyInt (max_days / dt)).toNat m.initState
    rw [simulate_eq_simLoop, hrun] at hk ⊢
    rw [stepIter_S_list] at hk
    simp only [HammerDanceModel.initState, List.nil_append, List.length_map,
      List.length_range] at hk
    rw [stepIter_S_list, stepIter_I_list, stepIter_R_list]
    simp only [HammerDanceModel.initState, List.nil_append]
    rw [getD_map_range _ _ _ _ hk, getD_map_range _ _ _ _ hk,
      getD_map_range _ _ _ _ hk]
    have h := stepIter_sum m ht dtl dt m.initState k
    have h0 := initState_sum m
    simp only [HammerDanceModel.initState] at h h0 ⊢
    rw [h]
    exact h0
  · exact fun m S I R beta dt => euler_step_sum m S I R beta dt

theorem C3_witness :
    0 < (exModelSteady.simulate_dynamic_hammer_dance 1 100 0 none none 1).S_list.length ∧
      (exModelSteady.simulate_dynamic_hammer_dance 1 100 0 none none 1).S_list.getD 0 0 +
        (exModelSteady.simulate_dynamic_hammer_dance 1 100 0 none none 1).I_list.getD 0 0 +
        (exModelSteady.simulate_dynamic_hammer_dance 1 100 0 none none 1).R_list.getD 0 0 =
        exModelSteady.N := by
  have h1 : (pyInt ((1 : ℚ) / 1)).toNat = 1 := by norm_num [pyInt]
  have hlen :
      0 < (exModelSteady.simulate_dynamic_hammer_dance 1 100 0 none none 1).S_list.length := by
    rw [simulate_eq_simLoop, h1, simLoop_succ, simLoop_zero, ite_self,
      simStep_S_list]
    simp
  exact ⟨hlen, C3_conservation.1 exModelSteady 1 100 0 none none 1 0 hlen⟩

/-- C8: a step that does not change the phase appends nothing to the
transition log; a step that changes the phase appends exactly one event,
recording the simulated time at the start of that step and the
pre-integration infected count observed at the decision point.  In both
cases the new log is the old log with entries appended at the end only
(never removed or reordered). -/
theorem C8_transition_log (m : HammerDanceModel) (ht dtl dt : ℚ) (st : SimState) :
    ((m.simStep ht dtl dt st).current_phase = st.current_phase →
      (m.simStep ht dtl dt st).transition_points = st.transition_points) ∧
    ((m.simStep ht dtl dt st).current_phase ≠ st.current_phase →
      (m.simStep ht dtl dt st).transition_points =
        st.transition_points ++
          [(st.t,
            (if st.current_phase = Phase.dance then TransitionKind.dance_to_hammer
             else TransitionKind.hammer_to_dance_threshold), st.I)]) := by
  rw [simStep_transitions, simStep_phase]
  cases h : st.current_phase <;> simp only [h] <;> split <;> simp_all

/-- C10: every entry of the time series is the state at the start of a
step, appended before that step's decision and integration; and on a
concrete extinction run, the post-integration state that triggered the
extinction exit is not among the recorded entries, so the last recorded
infected count stays at or above `0.1` even though the final infected
count is below `0.1`. -/
theorem C10_series_entries_pre_step :
    (∀ (m : HammerDanceModel) (ht dtl dt : ℚ) (st : SimState),
      (m.simStep ht dtl dt st).t_list = st.t_list ++ [st.t] ∧
      (m.simStep ht dtl dt st).S_list = st.S_list ++ [st.S] ∧
      (m.simStep ht dtl dt st).I_list = st.I_list ++ [st.I] ∧
      (m.simStep ht dtl dt st).R_list = st.R_list ++ [st.R] ∧
      (m.simStep ht dtl dt st).phase_list = st.phase_list ++ [st.current_phase]) ∧
    ((exModelExtinct.simulate_dynamic_hammer_dance 1 100 0 none none (1/10)).I < 1/10 ∧
     (exModelExtinct.simulate_dynamic_hammer_dance 1 100 0 none none (1/10)).I_list = [1] ∧
     (1/10 : ℚ) ≤ 1 ∧
     (exModelExtinct.simulate_dynamic_hammer_dance 1 100 0 none none (1/10)).I ∉
       (exModelExtinct.simulate_dynamic_hammer_dance 1 100 0 none none (1/10)).I_list) := by
  constructor
  · exact fun m ht dtl dt st =>
      ⟨simStep_t_list m ht dtl dt st, simStep_S_list m ht dtl dt st,
       simStep_I_list m ht dtl dt st, simStep_R_list m ht dtl dt st,
       simStep_phase_list m ht dtl dt st⟩
  · have hstep :
        exModelExtinct.simStep 100 0 (1/10) exModelExtinct.initState =
          { t_list := [0], S_list := [9], I_list := [1], R_list := [0],
            phase_list := [Phase.dance], transition_points := [],
            S := 9, I := 0, R := 1, t := 1/10,
            current_phase := Phase.dance, phase_start_time := 0 } := by
      norm_num [HammerDanceModel.simStep, HammerDanceModel.initState,
        HammerDanceModel.euler_step, HammerDanceModel.sir_derivatives,
        HammerDanceModel.S0, exModelExtinct]
    have hrun :
        exModelExtinct.simulate_dynamic_hammer_dance 1 100 0 none none (1/10) =
          { t_list := [0], S_list := [9], I_list := [1], R_list := [0],
            phase_list := [Phase.dance], transition_points := [],
            S := 9, I := 0, R := 1, t := 1/10,
            current_phase := Phase.dance, phase_start_time := 0 } := by
      have hsteps : (pyInt ((1 : ℚ) / (1/10))).toNat = 10 := by
        have h : pyInt ((1 : ℚ) / (1/10)) = 10 := by norm_num [pyInt]
        rw [h]
        rfl
      rw [simulate_eq_simLoop, hsteps]
      show exModelExtinct.simLoop 100 0 (1/10) (9 + 1) exModelExtinct.initState = _
      rw [simLoop_succ, hstep, if_pos (by norm_num [extinct])]
    rw [hrun]
    norm_num [extinct]

/-- C7: with `dt > 0` the simulation terminates within at most
`floor(max_days / dt)` loop iterations (the series records one entry per
executed iteration, so its length bounds the iteration count); and when
the infected count never drops below `0.1` after any executed step, all
five returned series have exactly `floor(max_days / dt)` entries. -/
theorem C7_budget_termination (m : HammerDanceModel)
    (max_days ht dtl : ℚ) (hd dd : Option ℚ) (dt : ℚ) (hdt : 0 < dt) :
    (m.simulate_dynamic_hammer_dance max_days ht dtl hd dd dt).t_list.length ≤
      ⌊max_days / dt⌋.toNat ∧
    ((∀ j, j < ⌊max_days / dt⌋.toNat →
        ¬ extinct (m.stepIter ht dtl dt m.initState (j + 1))) →
      ((m.simulate_dynamic_hammer_dance max_days ht dtl hd dd dt).t_list.length =
          ⌊max_days / dt⌋.toNat ∧
       (m.simulate_dynamic_hammer_dance max_days ht dtl hd dd dt).S_list.length =
          ⌊max_days / dt⌋.toNat ∧
       (m.simulate_dynamic_hammer_dance max_days ht dtl hd dd dt).I_list.length =
          ⌊max_days / dt⌋.toNat ∧
       (m.simulate_dynamic_hammer_dance max_days ht dtl hd dd dt).R_list.length =
          ⌊max_days / dt⌋.toNat ∧
       (m.simulate_dynamic_hammer_dance max_days ht dtl hd dd dt).phase_list.length =
          ⌊max_days / dt⌋.toNat)) := by
  have hb := pyInt_toNat (max_days / dt)
  constructor
  · obtain ⟨j, hj, hrun⟩ := simLoop_exists_stepIter m ht dtl dt
      (pyInt (max_days / dt)).toNat m.initState
    rw [simulate_eq_simLoop, hrun, stepIter_t_list]
    simp only [HammerDanceModel.initState, List.nil_append, List.length_map,
      List.length_range]
    exact le_trans hj (le_of_eq hb)
  · intro hno
    rw [simulate_eq_simLoop,
      simLoop_eq_stepIter m ht dtl dt _ m.initState (fun k hk => hno k (by
        rw [← hb]; exact hk)),
      stepIter_t_list, stepIter_S_list, stepIter_I_list, stepIter_R_list,
      stepIter_phase_list]
    simp only [HammerDanceModel.initState, List.nil_append, List.length_map,
      List.length_range]
    exact ⟨hb, hb, hb, hb, hb⟩

theorem C7_witness :
    (0 : ℚ) < 1 ∧
    (∀ j, j < ⌊(2 : ℚ) / 1⌋.toNat →
        ¬ extinct (exModelSteady.stepIter 100 0 1 exModelSteady.initState (j + 1))) ∧
    (exModelSteady.simulate_dynamic_hammer_dance 2 100 0 none none 1).t_list.length =
      ⌊(2 : ℚ) / 1⌋.toNat := by
  have hfloor : (⌊(2 : ℚ) / 1⌋).toNat = 2 := by
    have h : ⌊(2 : ℚ) / 1⌋ = 2 := by norm_num
    rw [h]
    rfl
  have h1 : exModelSteady.stepIter 100 0 1 exModelSteady.initState 1 =
      { t_list := [0], S_list := [9], I_list := [1], R_list := [0],
        phase_list := [Phase.dance], transition_points := [],
        S := 9, I := 1, R := 0, t := 1,
        current_phase := Phase.dance, phase_start_time := 0 } := by
    show exModelSteady.simStep 100 0 1 exModelSteady.initState = _
    norm_num [HammerDanceModel.simStep, HammerDanceModel.initState,
      HammerDanceModel.euler_step, HammerDanceModel.sir_derivatives,
      HammerDanceModel.S0, exModelSteady]
  have h2 : exModelSteady.stepIter 100 0 1 exModelSteady.initState 2 =
      { t_list := [0, 1], S_list := [9, 9], I_list := [1, 1], R_list := [0, 0],
        phase_list := [Phase.dance, Phase.dance], transition_points := [],
        S := 9, I := 1, R := 0, t := 2,
        current_phase := Phase.dance, phase_start_time := 0 } := by
    show exModelSteady.simStep 100 0 1
      (exModelSteady.stepIter 100 0 1 exModelSteady.initState 1) = _
    rw [h1]
    norm_num [HammerDanceModel.simStep, HammerDanceModel.euler_step,
      HammerDanceModel.sir_derivatives, exModelSteady]
  have hno : ∀ j, j < ⌊(2 : ℚ) / 1⌋.toNat →
      ¬ extinct (exModelSteady.stepIter 100 0 1 exModelSteady.initState (j + 1)) := by
    rw [hfloor]
    intro j hj
    interval_cases j
    · rw [h1]; norm_num [extinct]
    · rw [h2]; norm_num [extinct]
  exact ⟨by norm_num, hno,
    ((C7_budget_termination exModelSteady 2 100 0 none none 1 (by norm_num)).2 hno).1⟩

/-- C6: if the post-integration infected count first drops below `0.1`
at a step strictly before the step budget `int(max_days / dt)` is
exhausted, the simulation stops immediately at that step, returning the
post-integration state of that step: the series has one entry per
executed step (strictly fewer than the budget) and the final infected
count is below `0.1`, even though the budget would have allowed further
iterations — the extinction check fires after integration, before the
budget is consulted again. -/
theorem C6_extinction_termination (m : HammerDanceModel)
    (max_days ht dtl : ℚ) (hd dd : Option ℚ) (dt : ℚ) (k : Nat)
    (hk : k + 1 < (pyInt (max_days / dt)).toNat)
    (hno : ∀ j, j < k → ¬ extinct (m.stepIter ht dtl dt m.initState (j + 1)))
    (hx : extinct (m.stepIter ht dtl dt m.initState (k + 1))) :
    m.simulate_dynamic_hammer_dance max_days ht dtl hd dd dt =
      m.stepIter ht dtl dt m.initState (k + 1) ∧
    (m.simulate_dynamic_hammer_dance max_days ht dtl hd dd dt).t_list.length =
      k + 1 ∧
    (m.simulate_dynamic_hammer_dance max_days ht dtl hd dd dt).t_list.length <
      (pyInt (max_days / dt)).toNat ∧
    (m.simulate_dynamic_hammer_dance max_days ht dtl hd dd dt).I < 1 / 10 := by
  have hrun : m.simulate_dynamic_hammer_dance max_days ht dtl hd dd dt =
      m.stepIter ht dtl dt m.initState (k + 1) := by
    rw [simulate_eq_simLoop]
    exact simLoop_stops m ht dtl dt k _ m.initState
      (Nat.lt_of_succ_lt hk) hno hx
  have hlen : (m.stepIter ht dtl dt m.initState (k + 1)).t_list.length = k + 1 := by
    rw [stepIter_t_list]
    simp [HammerDanceModel.initState]
  refine ⟨hrun, ?_, ?_, ?_⟩
  · rw [hrun]; exact hlen
  · rw [hrun, hlen]; exact hk
  · rw [hrun]; exact hx

theorem C6_witness :
    0 + 1 < (pyInt ((1 : ℚ) / (1/10))).toNat ∧
    extinct (exModelExtinct.stepIter 100 0 (1/10) exModelExtinct.initState (0 + 1)) ∧
    (exModelExtinct.simulate_dynamic_hammer_dance 1 100 0 none none (1/10)).t_list.length =
      0 + 1 ∧
    (exModelExtinct.simulate_dynamic_hammer_dance 1 100 0 none none (1/10)).t_list.length <
      (pyInt ((1 : ℚ) / (1/10))).toNat ∧
    (exModelExtinct.simulate_dynamic_hammer_dance 1 100 0 none none (1/10)).I < 1 / 10 := by
  have hsteps : (pyInt ((1 : ℚ) / (1/10))).toNat = 10 := by
    have h : pyInt ((1 : ℚ) / (1/10)) = 10 := by norm_num [pyInt]
    rw [h]
    rfl
  have hk : 0 + 1 < (pyInt ((1 : ℚ) / (1/10))).toNat := by rw [hsteps]; norm_num
  have hno : ∀ j, j < 0 →
      ¬ extinct (exModelExtinct.stepIter 100 0 (1/10) exModelExtinct.initState (j + 1)) := by
    intro j hj
    exact absurd hj (Nat.not_lt_zero j)
  have hx : extinct (exModelExtinct.stepIter 100 0 (1/10) exModelExtinct.initState (0 + 1)) := by
    show extinct (exModelExtinct.simStep 100 0 (1/10) exModelExtinct.initState)
    have hstep :
        (exModelExtinct.simStep 100 0 (1/10) exModelExtinct.initState).I = 0 := by
      rw [simStep_I]
      norm_num [HammerDanceModel.euler_step, HammerDanceModel.sir_derivatives,
        HammerDanceModel.initState, HammerDanceModel.S0, exModelExtinct]
    rw [extinct, hstep]
    norm_num
  have hmain := C6_extinction_termination exModelExtinct 1 100 0 none none (1/10) 0
    hk hno hx
  exact ⟨hk, hx, hmain.2.1, hmain.2.2.1, hmain.2.2.2⟩

/-! ## Projections of the initial state -/

theorem initState_t_list (m : HammerDanceModel) : m.initState.t_list = [] := rfl

theorem initState_S_list (m : HammerDanceModel) : m.initState.S_list = [] := rfl

theorem initState_I_list (m : HammerDanceModel) : m.initState.I_list = [] := rfl

theorem initState_R_list (m : HammerDanceModel) : m.initState.R_list = [] := rfl

theorem initState_phase_list (m : HammerDanceModel) :
    m.initState.phase_list = [] := rfl

/-- C9: for every run, the phase label recorded at index `k` is the phase
carried into step `k` (recorded before the transition decision of that
step), and the Euler step from recorded state `k` to recorded state
`k + 1` (or to the final live state, for the last recorded step) uses
`beta_dance` exactly when that recorded label is `dance` and
`beta_hammer` when it is `hammer` — the recorded label and the rate
applied on that step always agree, including on transition steps. -/
theorem C9_phase_rate_correspondence (m : HammerDanceModel)
    (max_days ht dtl : ℚ) (hd dd : Option ℚ) (dt : ℚ) (res : SimState)
    (hres : res = m.simulate_dynamic_hammer_dance max_days ht dtl hd dd dt) :
    (∀ k : Nat, k + 1 < res.phase_list.length →
      (res.S_list.getD (k + 1) 0, res.I_list.getD (k + 1) 0,
        res.R_list.getD (k + 1) 0) =
        m.euler_step (res.S_list.getD k 0) (res.I_list.getD k 0)
          (res.R_list.getD k 0)
          (if res.phase_list.getD k Phase.dance = Phase.dance then m.beta_dance
           else m.beta_hammer) dt) ∧
    (0 < res.phase_list.length →
      (res.S, res.I, res.R) =
        m.euler_step (res.S_list.getD (res.phase_list.length - 1) 0)
          (res.I_list.getD (res.phase_list.length - 1) 0)
          (res.R_list.getD (res.phase_list.length - 1) 0)
          (if res.phase_list.getD (res.phase_list.length - 1) Phase.dance =
              Phase.dance then m.beta_dance
           else m.beta_hammer) dt) := by
  obtain ⟨j, hj, hrun⟩ := simLoop_exists_stepIter m ht dtl dt
    (pyInt (max_days / dt)).toNat m.initState
  rw [simulate_eq_simLoop, hrun] at hres
  subst hres
  have hplen : (m.stepIter ht dtl dt m.initState j).phase_list.length = j := by
    rw [stepIter_phase_list]
    simp [initState_phase_list]
  constructor
  · intro k hk
    rw [hplen] at hk
    have hk1 : k < j := Nat.lt_of_succ_lt hk
    simp only [stepIter_S_list, stepIter_I_list, stepIter_R_list,
      stepIter_phase_list, initState_S_list, initState_I_list,
      initState_R_list, initState_phase_list, List.nil_append,
      getD_map_range _ _ _ _ hk, getD_map_range _ _ _ _ hk1]
    have hstep : m.stepIter ht dtl dt m.initState (k + 1) =
        m.simStep ht dtl dt (m.stepIter ht dtl dt m.initState k) := rfl
    rw [hstep, simStep_S, simStep_I, simStep_R]
  · intro h0
    rw [hplen] at h0
    obtain ⟨j1, rfl⟩ := Nat.exists_eq_succ_of_ne_zero (Nat.pos_iff_ne_zero.mp h0)
    have hj1 : j1 < j1.succ := Nat.lt_succ_self j1
    simp only [hplen, Nat.succ_sub_one, stepIter_S_list, stepIter_I_list,
      stepIter_R_list, stepIter_phase_list, initState_S_list, initState_I_list,
      initState_R_list, initState_phase_list, List.nil_append,
      List.length_map, List.length_range,
      getD_map_range _ _ _ _ hj1]
    have hstep : m.stepIter ht dtl dt m.initState j1.succ =
        m.simStep ht dtl dt (m.stepIter ht dtl dt m.initState j1) := rfl
    rw [hstep, simStep_S, simStep_I, simStep_R]

/-! ## Concrete run of the steady fixture (two steps, no extinction) -/

theorem steady_step0 :
    exModelSteady.simStep 100 0 1 exModelSteady.initState =
      { t_list := [0], S_list := [9], I_list := [1], R_list := [0],
        phase_list := [Phase.dance], transition_points := [],
        S := 9, I := 1, R := 0, t := 1,
        current_phase := Phase.dance, phase_start_time := 0 } := by
  norm_num [HammerDanceModel.simStep, HammerDanceModel.initState,
    HammerDanceModel.euler_step, HammerDanceModel.sir_derivatives,
    HammerDanceModel.S0, exModelSteady]

theorem steady_step1 :
    exModelSteady.simStep 100 0 1
      { t_list := [0], S_list := [9], I_list := [1], R_list := [0],
        phase_list := [Phase.dance], transition_points := [],
        S := 9, I := 1, R := 0, t := 1,
        current_phase := Phase.dance, phase_start_time := 0 } =
      { t_list := [0, 1], S_list := [9, 9], I_list := [1, 1], R_list := [0, 0],
        phase_list := [Phase.dance, Phase.dance], transition_points := [],
        S := 9, I := 1, R := 0, t := 2,
        current_phase := Phase.dance, phase_start_time := 0 } := by
  norm_num [HammerDanceModel.simStep, HammerDanceModel.euler_step,
    HammerDanceModel.sir_derivatives, exModelSteady]

theorem steady_run :
    exModelSteady.simulate_dynamic_hammer_dance 2 100 0 none none 1 =
      { t_list := [0, 1], S_list := [9, 9], I_list := [1, 1], R_list := [0, 0],
        phase_list := [Phase.dance, Phase.dance], transition_points := [],
        S := 9, I := 1, R := 0, t := 2,
        current_phase := Phase.dance, phase_start_time := 0 } := by
  have hsteps : (pyInt ((2 : ℚ) / 1)).toNat = 2 := by
    have h : pyInt ((2 : ℚ) / 1) = 2 := by norm_num [pyInt]
    rw [h]
    rfl
  rw [simulate_eq_simLoop, hsteps]
  show exModelSteady.simLoop 100 0 1 (1 + 1) exModelSteady.initState = _
  rw [simLoop_succ, steady_step0, if_neg (by norm_num [extinct]), simLoop_succ,
    steady_step1, if_neg (by norm_num [extinct]), simLoop_zero]

theorem C9_witness :
    0 + 1 < (exModelSteady.simulate_dynamic_hammer_dance 2 100 0 none none 1).phase_list.length ∧
    ((exModelSteady.simulate_dynamic_hammer_dance 2 100 0 none none 1).S_list.getD (0 + 1) 0,
     (exModelSteady.simulate_dynamic_hammer_dance 2 100 0 none none 1).I_list.getD (0 + 1) 0,
     (exModelSteady.simulate_dynamic_hammer_dance 2 100 0 none none 1).R_list.getD (0 + 1) 0) =
      exModelSteady.euler_step
        ((exModelSteady.simulate_dynamic_hammer_dance 2 100 0 none none 1).S_list.getD 0 0)
        ((exModelSteady.simulate_dynamic_hammer_dance 2 100 0 none none 1).I_list.getD 0 0)
        ((exModelSteady.simulate_dynamic_hammer_dance 2 100 0 none none 1).R_list.getD 0 0)
        (if (exModelSteady.simulate_dynamic_hammer_dance 2 100 0 none none 1).phase_list.getD
              0 Phase.dance = Phase.dance then exModelSteady.beta_dance
         else exModelSteady.beta_hammer) 1 := by
  have hlen :
      0 + 1 < (exModelSteady.simulate_dynamic_hammer_dance 2 100 0 none none 1).phase_list.length := by
    rw [steady_run]
    norm_num
  exact ⟨hlen,
    (C9_phase_rate_correspondence exModelSteady 2 100 0 none none 1
      (exModelSteady.simulate_dynamic_hammer_dance 2 100 0 none none 1) rfl).1 0 hlen⟩

/-- C1 (counterexample): with `N = 10`, `I0 = 5`, `R0 = 0`,
`beta_hammer = 0`, `beta_dance = 1`, `γ = 0`, `hammer_threshold = 1`,
`dt = 1`, the very first step switches the phase from `dance` to
`hammer` (the transition event is logged and the updated phase is
`hammer`), yet the state after that step is the Euler step taken with
`beta_dance` — not with `beta_hammer`, as the claim requires: the two
disagree (`I = 7.5` versus `I = 5`). -/
theorem C1_counterexample :
    (exModelSwitch.simulate_dynamic_hammer_dance 1 1 0 none none 1).current_phase =
      Phase.hammer ∧
    (exModelSwitch.simulate_dynamic_hammer_dance 1 1 0 none none 1).transition_points =
      [(0, TransitionKind.dance_to_hammer, 5)] ∧
    (exModelSwitch.simulate_dynamic_hammer_dance 1 1 0 none none 1).I =
      (exModelSwitch.euler_step exModelSwitch.S0 exModelSwitch.I0 exModelSwitch.R0
        exModelSwitch.beta_dance 1).2.1 ∧
    (exModelSwitch.simulate_dynamic_hammer_dance 1 1 0 none none 1).I ≠
      (exModelSwitch.euler_step exModelSwitch.S0 exModelSwitch.I0 exModelSwitch.R0
        exModelSwitch.beta_hammer 1).2.1 := by
  have hstep :
      exModelSwitch.simStep 1 0 1 exModelSwitch.initState =
        { t_list := [0], S_list := [5], I_list := [5], R_list := [0],
          phase_list := [Phase.dance],
          transition_points := [(0, TransitionKind.dance_to_hammer, 5)],
          S := 5/2, I := 15/2, R := 0, t := 1,
          current_phase := Phase.hammer, phase_start_time := 0 } := by
    norm_num [HammerDanceModel.simStep, HammerDanceModel.initState,
      HammerDanceModel.euler_step, HammerDanceModel.sir_derivatives,
      HammerDanceModel.S0, exModelSwitch]
  have hrun :
      exModelSwitch.simulate_dynamic_hammer_dance 1 1 0 none none 1 =
        { t_list := [0], S_list := [5], I_list := [5], R_list := [0],
          phase_list := [Phase.dance],
          transition_points := [(0, TransitionKind.dance_to_hammer, 5)],
          S := 5/2, I := 15/2, R := 0, t := 1,
          current_phase := Phase.hammer, phase_start_time := 0 } := by
    have hsteps : (pyInt ((1 : ℚ) / 1)).toNat = 1 := by
      have h : pyInt ((1 : ℚ) / 1) = 1 := by norm_num [pyInt]
      rw [h]
      rfl
    rw [simulate_eq_simLoop, hsteps]
    show exModelSwitch.simLoop 1 0 1 (0 + 1) exModelSwitch.initState = _
    rw [simLoop_succ, hstep, if_neg (by norm_num [extinct]), simLoop_zero]
  rw [hrun]
  refine ⟨rfl, rfl, ?_, ?_⟩ <;>
    norm_num [HammerDanceModel.euler_step, HammerDanceModel.sir_derivatives,
      HammerDanceModel.S0, exModelSwitch]

theorem C4_witness :
    (exModelSwitch.simStep 1 0 1 exModelSwitch.initState).current_phase =
      Phase.hammer :=
  ((C4_phase_machine exModelSwitch 1 0 1).2.1 exModelSwitch.initState rfl).1.mpr
    (by norm_num [HammerDanceModel.initState, HammerDanceModel.S0, exModelSwitch])

theorem C8_witness :
    (exModelSwitch.simStep 1 0 1 exModelSwitch.initState).transition_points =
      exModelSwitch.initState.transition_points ++
        [(exModelSwitch.initState.t,
          (if exModelSwitch.initState.current_phase = Phase.dance then
            TransitionKind.dance_to_hammer
           else TransitionKind.hammer_to_dance_threshold),
          exModelSwitch.initState.I)] :=
  (C8_transition_log exModelSwitch 1 0 1 exModelSwitch.initState).2
    (by
      rw [simStep_phase]
      norm_num [HammerDanceModel.initState, HammerDanceModel.S0, exModelSwitch]
      decide)
